import Mathlib

/-!
Verification of the ironroom matchmaking engine.

This file gives a shallow embedding of the matchmaking core:
  * the background worker `processMatchmakingQueue` / `createMatch` and its
    safety lookups (`checkBlocked`, `checkReported`, `checkSuspended`,
    `checkRecentMatch`) from the worker source file;
  * the request route `POST /api/matches/request`, the cancel route and the
    end-match route from `src/routes/matches.js`;
  * the scoring constants from `src/utils/constants.js`.

Machine integers are modelled as `Int` (JS numbers here are millisecond
timestamps and small scores, exact in double precision).  `Math.floor` of a
real quotient is `Int.fdiv`; `Math.ceil (d / 1000)` is `(d + 999).fdiv 1000`.
External asynchronous lookups that can fail are modelled as functions
returning `Except Unit Bool`; a JS thrown exception is the `.error` case and
the worker's surrounding try/catch is the `.error` branch of the pass.

The worker performs its safety lookups while scanning and performs no lookup
between selecting the best pair and `prisma.privateMatch.create`.  To talk
about facts "at commit time" the pass takes two lookup environments,
`lkScan` used by the scan, and `lkCommit` standing for the state of the
world when the create statement runs; faithfully to the source, `lkCommit`
is never consulted.
-/

namespace Ironroom

/-- One member of the Redis matchmaking queue: the JSON object built by the
request route (`userId`, `intentTagIds`, `timestampJoined`). -/
structure QueueUser where
  userId : String
  intentTagIds : List String
  timestampJoined : Int
deriving DecidableEq, Repr

/-- A row of the `privateMatch` table. -/
structure MatchRecord where
  mid : Nat
  userOneId : String
  userTwoId : String
  status : String
  matchedAt : Int
  endedAt : Option Int
  durationSeconds : Option Int
deriving DecidableEq, Repr

/-- A row of the `report` table (fields used by the engine and by the admin
moderation route, which sets `status` to "resolved"). -/
structure Report where
  reportedBy : String
  targetUserId : String
  status : String
deriving DecidableEq, Repr

/-- The slice of the database the matchmaking core reads and writes:
match records, block rows `(blockerId, blockedId)`, report rows, and the set
of user ids whose `isSuspended` flag is true. -/
structure Db where
  privateMatches : List MatchRecord
  blocks : List (String × String)
  reports : List Report
  suspended : List String
deriving DecidableEq, Repr

/-- Scoring constants from `MATCH_SCORING` in `src/utils/constants.js`. -/
def SHARED_INTENT : Int := 50

def TIME_WAITING_PER_10S : Int := 1

def RECENT_ACTIVITY : Int := 10

def RECENT_ACTIVITY_WINDOW_MS : Int := 2 * 60 * 1000

def CONVERSATION_FATIGUE : Int := -40

def FATIGUE_WINDOW_MS : Int := 7 * 24 * 60 * 60 * 1000

def MATCH_COOLDOWN_MS : Int := 5 * 60 * 1000

/-- Worker helper `checkBlocked`: a `blockedUser` row exists in either
direction between the two users. -/
def checkBlocked (db : Db) (userAId userBId : String) : Bool :=
  db.blocks.any fun p =>
    (p.1 == userAId && p.2 == userBId) || (p.1 == userBId && p.2 == userAId)

/-- Worker helper `checkReported`: a `report` row exists in either direction
between the two users.  The query has no condition on `status`. -/
def checkReported (db : Db) (userAId userBId : String) : Bool :=
  db.reports.any fun r =>
    (r.reportedBy == userAId && r.targetUserId == userBId) ||
    (r.reportedBy == userBId && r.targetUserId == userAId)

/-- Worker helper `checkSuspended`: either user has `isSuspended` true. -/
def checkSuspended (db : Db) (userAId userBId : String) : Bool :=
  db.suspended.any fun u => u == userAId || u == userBId

/-- Worker helper `checkRecentMatch`: a `privateMatch` row between the two
users (either orientation, any status) with `matchedAt` at least
`now - 7 days`.  The source computes the bound with `setDate(getDate() - 7)`;
we model the seven-day window in milliseconds. -/
def checkRecentMatch (db : Db) (userAId userBId : String) (now : Int) : Bool :=
  db.privateMatches.any fun m =>
    ((m.userOneId == userAId && m.userTwoId == userBId) ||
     (m.userOneId == userBId && m.userTwoId == userAId)) &&
    decide (now - FATIGUE_WINDOW_MS ≤ m.matchedAt)

/-- The safety filter of spec section 4.2 as the engine composes it: the
conjunction of the three worker checks run on a pair during the scan
(a vetoed pair is skipped with `continue`). -/
def isPermitted (db : Db) (userAId userBId : String) : Bool :=
  !(checkBlocked db userAId userBId) &&
  !(checkReported db userAId userBId) &&
  !(checkSuspended db userAId userBId)

/-- Worker scan, shared-intent filter: `userA.intentTagIds.filter (id =>
userB.intentTagIds.includes(id))`. -/
def sharedIntents (userA userB : QueueUser) : List String :=
  userA.intentTagIds.filter fun id => userB.intentTagIds.contains id

/-- Worker scan, score of one pair (source lines building `score` from 0:
shared-intent bonus, the two wait-time bonuses, the recent-activity bonus,
and the conversation-fatigue penalty whose lookup result is the
`recentMatch` argument).  `Math.floor (((now - joined) / 1000) / 10)` is
`(now - joined).fdiv 10000`. -/
def computeScore (userA userB : QueueUser) (now : Int) (recentMatch : Bool) : Int :=
  let score : Int := 0
  let score := if 0 < (sharedIntents userA userB).length
               then score + SHARED_INTENT else score
  let score := score + ((now - userA.timestampJoined).fdiv 10000) * TIME_WAITING_PER_10S
  let score := score + ((now - userB.timestampJoined).fdiv 10000) * TIME_WAITING_PER_10S
  let score := if |userA.timestampJoined - userB.timestampJoined| < RECENT_ACTIVITY_WINDOW_MS
               then score + RECENT_ACTIVITY else score
  let score := if recentMatch then score + CONVERSATION_FATIGUE else score
  score

/-- Request-route score (the database-queue variant of `POST /request`):
identical to the worker's formula except that the wait-time bonus counts
only the candidate's wait, not the requester's. -/
def requestScore (myJoinedAt : Int) (myTags : List String)
    (candJoinedAt : Int) (candTags : List String) (now : Int) (recentMatch : Bool) : Int :=
  let score : Int := 0
  let score := if 0 < (myTags.filter fun id => candTags.contains id).length
               then score + SHARED_INTENT else score
  let score := score + ((now - candJoinedAt).fdiv 10000) * TIME_WAITING_PER_10S
  let score := if |myJoinedAt - candJoinedAt| < RECENT_ACTIVITY_WINDOW_MS
               then score + RECENT_ACTIVITY else score
  let score := if recentMatch then score + CONVERSATION_FATIGUE else score
  score

/-- External lookup environment for one scheduling pass.  Each field is one
of the worker's awaited queries; `.error ()` models the query throwing. -/
structure Lookups where
  blocked : String → String → Except Unit Bool
  reported : String → String → Except Unit Bool
  suspended : String → String → Except Unit Bool
  recentMatch : String → String → Except Unit Bool

/-- The lookup environment induced by a database snapshot in which no query
fails. -/
def dbLookups (db : Db) (now : Int) : Lookups where
  blocked := fun a b => .ok (checkBlocked db a b)
  reported := fun a b => .ok (checkReported db a b)
  suspended := fun a b => .ok (checkSuspended db a b)
  recentMatch := fun a b => .ok (checkRecentMatch db a b now)

/-- The worker's running best pair (`bestPair` with its `score`). -/
structure Best where
  userA : QueueUser
  userB : QueueUser
  score : Int
deriving DecidableEq, Repr

/-- All index pairs `i < j` of the nested scan loops, in loop order. -/
def allPairs : List QueueUser → List (QueueUser × QueueUser)
  | [] => []
  | x :: xs => (xs.map fun y => (x, y)) ++ allPairs xs

/-- One iteration of the scan body on pair `p` with accumulator `acc`
(`bestPair`/`bestScore`, `none` standing for `-Infinity`): the three safety
lookups with `continue` on a veto, the fatigue lookup, the score, and the
strict `score > bestScore` comparison. -/
def considerPair (lk : Lookups) (now : Int) (acc : Option Best)
    (p : QueueUser × QueueUser) : Except Unit (Option Best) :=
  match lk.blocked p.1.userId p.2.userId with
  | .error e => .error e
  | .ok true => .ok acc
  | .ok false =>
    match lk.reported p.1.userId p.2.userId with
    | .error e => .error e
    | .ok true => .ok acc
    | .ok false =>
      match lk.suspended p.1.userId p.2.userId with
      | .error e => .error e
      | .ok true => .ok acc
      | .ok false =>
        match lk.recentMatch p.1.userId p.2.userId with
        | .error e => .error e
        | .ok recent =>
          let score := computeScore p.1 p.2 now recent
          match acc with
          | none => .ok (some ⟨p.1, p.2, score⟩)
          | some b => if score > b.score then .ok (some ⟨p.1, p.2, score⟩) else .ok acc

/-- The full scan of the worker: fold the loop body over all pairs.  The
first thrown lookup aborts the whole scan, as the exception propagates out
of the loops. -/
def scanPairs (lk : Lookups) (users : List QueueUser) (now : Int) :
    Except Unit (Option Best) :=
  (allPairs users).foldlM (considerPair lk now) none

/-- Worker `createMatch` (database part): unconditionally inserts an active
`privateMatch` row for the two users.  There is no check of any kind on
existing rows. -/
def createMatch (db : Db) (userAId userBId : String) (now : Int) : Db × MatchRecord :=
  let m : MatchRecord :=
    { mid := db.privateMatches.length
      userOneId := userAId
      userTwoId := userBId
      status := "active"
      matchedAt := now
      endedAt := none
      durationSeconds := none }
  ({ db with privateMatches := db.privateMatches ++ [m] }, m)

/-- Engine state: the Redis queue (in `zrange` order) and the database. -/
structure WorldState where
  queue : List QueueUser
  db : Db
deriving DecidableEq, Repr

/-- Timeout test of the reaper section of the pass: some snapshot entry of
this user has waited more than 120000 ms. -/
def timedOut (snapshot : List QueueUser) (uid : String) (now : Int) : Bool :=
  snapshot.any fun u => u.userId == uid && decide (now - u.timestampJoined > 120000)

/-- Net effect of the reaper loop at the end of a pass: every remaining
entry whose user has (per the snapshot) exceeded the 120000 ms maximum wait
is removed. -/
def reap (snapshot q : List QueueUser) (now : Int) : List QueueUser :=
  q.filter fun e => !(timedOut snapshot e.userId now)

/-- The worker pass `processMatchmakingQueue`.  `lkScan` is the lookup
environment during the scan; `lkCommit` stands for the safety facts at the
moment `createMatch` runs — the source performs no lookup there, so
`lkCommit` is unused.  A thrown lookup lands in the catch block, which only
logs: the state is returned unchanged.  On a successful selection the match
is created and every queue entry of either chosen user is removed; then the
reaper loop removes timed-out entries. -/
def processMatchmakingQueue (lkScan lkCommit : Lookups) (s : WorldState) (now : Int) :
    WorldState :=
  if s.queue.length < 2 then s
  else
    match scanPairs lkScan s.queue now with
    | .error _ => s
    | .ok none => { s with queue := reap s.queue s.queue now }
    | .ok (some best) =>
      let db := (createMatch s.db best.userA.userId best.userB.userId now).1
      let q := s.queue.filter fun e =>
        !(e.userId == best.userA.userId || e.userId == best.userB.userId)
      { queue := reap s.queue q now, db := db }

/-- Result of `POST /api/matches/request` (Redis variant in
`src/routes/matches.js`). -/
inductive RequestResult where
  | alreadyActive (matchId : Nat)
  | cooldown (retryAfter : Int)
  | waiting
deriving DecidableEq, Repr

/-- Route step 1: `findFirst` of an active match involving the user. -/
def findActiveMatch (db : Db) (u : String) : Option MatchRecord :=
  db.privateMatches.find? fun m => (m.userOneId == u || m.userTwoId == u) && m.status == "active"

/-- Route step 2: the `endedAt` of the user's most recent ended match
(`findFirst` with `status: 'ended'`, `orderBy: endedAt desc`), modelled as
the maximum `endedAt` over the user's ended matches that carry one. -/
def lastEndedAt (db : Db) (u : String) : Option Int :=
  ((db.privateMatches.filter fun m =>
      (m.userOneId == u || m.userTwoId == u) && m.status == "ended").filterMap
    fun m => m.endedAt).max?

/-- `Math.ceil (d / 1000)` on an exact integer `d` of milliseconds. -/
def ceilSeconds (d : Int) : Int := (d + 999).fdiv 1000

/-- Redis `zadd`: a sorted-set insert; a member identical to an existing one
only has its score refreshed, a new member is appended. -/
def zaddEntry (q : List QueueUser) (e : QueueUser) : List QueueUser :=
  if q.contains e then q else q ++ [e]

/-- `POST /api/matches/request`, Redis variant: refuse while an active match
exists; refuse with the remaining whole seconds while within the cooldown
window after the most recent ended match; otherwise build the queue entry
from the user's intent tags and the current time and `zadd` it. -/
def requestMatch (s : WorldState) (u : String) (tags : List String) (now : Int) :
    RequestResult × WorldState :=
  match findActiveMatch s.db u with
  | some m => (.alreadyActive m.mid, s)
  | none =>
    match lastEndedAt s.db u with
    | some t =>
      if now < t + MATCH_COOLDOWN_MS then
        (.cooldown (ceilSeconds (t + MATCH_COOLDOWN_MS - now)), s)
      else
        (.waiting, { s with queue := zaddEntry s.queue ⟨u, tags, now⟩ })
    | none => (.waiting, { s with queue := zaddEntry s.queue ⟨u, tags, now⟩ })

/-- Queue-insert step of the database-queue variant of the request route:
`findUnique` on the user's id, and `create` only when no row exists. -/
def matchQueueEnqueue (q : List QueueUser) (u : String) (tags : List String)
    (now : Int) : List QueueUser :=
  if q.any fun e => e.userId == u then q else q ++ [⟨u, tags, now⟩]

/-- Result of `POST /api/matches/:matchId/end`. -/
inductive EndResult where
  | ended (durationSeconds : Int)
  | notFound
deriving DecidableEq, Repr

/-- `POST /api/matches/:matchId/end`: find the active match with this id
involving the caller; mark it ended with end time and duration
`Math.floor ((now - matchedAt) / 1000)`. -/
def endMatch (s : WorldState) (mid : Nat) (u : String) (now : Int) :
    EndResult × WorldState :=
  match s.db.privateMatches.find? fun m =>
      m.mid == mid && (m.userOneId == u || m.userTwoId == u) && m.status == "active" with
  | none => (.notFound, s)
  | some m =>
    let d := (now - m.matchedAt).fdiv 1000
    let ms := s.db.privateMatches.map fun x =>
      if x.mid == mid then
        { x with status := "ended", endedAt := some now, durationSeconds := some d }
      else x
    (.ended d, { s with db := { s.db with privateMatches := ms } })

/-- `POST /api/matches/cancel`, Redis variant: remove every queue entry of
the user. -/
def cancelMatch (s : WorldState) (u : String) : WorldState :=
  { s with queue := s.queue.filter fun e => !(e.userId == u) }

/-- The operations of the engine's interface, as one step relation:
a match request, a worker pass (with that pass's external lookup
environment), an end-match call, a cancellation. -/
inductive Op where
  | request (u : String) (tags : List String) (now : Int)
  | pass (lk : Lookups) (now : Int)
  | endM (mid : Nat) (u : String) (now : Int)
  | cancel (u : String)

/-- One engine step. -/
def step (s : WorldState) : Op → WorldState
  | .request u tags now => (requestMatch s u tags now).2
  | .pass lk now => processMatchmakingQueue lk lk s now
  | .endM mid u now => (endMatch s mid u now).2
  | .cancel u => cancelMatch s u

/-- A whole trace of engine operations. -/
def run (s : WorldState) (ops : List Op) : WorldState := ops.foldl step s

/-- The empty initial state. -/
def initState : WorldState := ⟨[], ⟨[], [], [], []⟩⟩

/-- Number of active match records involving a user. -/
def countActive (db : Db) (u : String) : Nat :=
  (db.privateMatches.filter fun m =>
    (m.userOneId == u || m.userTwoId == u) && m.status == "active").length

/-- The no-duplicate-active-match invariant together with the auxiliary fact
making it inductive: a queued user holds no active match. -/
def ActiveInvariant (s : WorldState) : Prop :=
  (∀ u, countActive s.db u ≤ 1) ∧ ∀ e ∈ s.queue, countActive s.db e.userId = 0

/-- Record of what the scan established about a stored best pair: it arose
from the scanned pair `p`, the three safety lookups returned false for it
during the scan, and its score is the scoring formula at the fatigue-lookup
result the scan observed. -/
def ScanSelected (lk : Lookups) (now : Int) (p : QueueUser × QueueUser) (b : Best) : Prop :=
  b.userA = p.1 ∧ b.userB = p.2 ∧
  lk.blocked p.1.userId p.2.userId = .ok false ∧
  lk.reported p.1.userId p.2.userId = .ok false ∧
  lk.suspended p.1.userId p.2.userId = .ok false ∧
  ∃ r, lk.recentMatch p.1.userId p.2.userId = .ok r ∧
    b.score = computeScore p.1 p.2 now r

/-! Basic lemmas about the scorer. -/

/-- The shared-intent condition of the scan holds exactly when the two tag
lists intersect. -/
theorem sharedIntents_pos (a b : QueueUser) :
    0 < (sharedIntents a b).length ↔ ∃ t, t ∈ a.intentTagIds ∧ t ∈ b.intentTagIds := by
  rw [List.length_pos_iff_exists_mem]
  simp [sharedIntents, List.mem_filter]

/-- Closed form of the worker's score accumulation. -/
theorem computeScore_eq (a b : QueueUser) (now : Int) (r : Bool) :
    computeScore a b now r =
      (if 0 < (sharedIntents a b).length then SHARED_INTENT else 0)
      + (now - a.timestampJoined).fdiv 10000 + (now - b.timestampJoined).fdiv 10000
      + (if |a.timestampJoined - b.timestampJoined| < RECENT_ACTIVITY_WINDOW_MS then
          RECENT_ACTIVITY else 0)
      + (if r then CONVERSATION_FATIGUE else 0) := by
  unfold computeScore
  by_cases h1 : 0 < (sharedIntents a b).length <;>
    by_cases h2 : |a.timestampJoined - b.timestampJoined| < RECENT_ACTIVITY_WINDOW_MS <;>
    cases r <;>
    simp [h1, h2, TIME_WAITING_PER_10S]

/-! Claim C4 — the scoring formula and the spec's numeric scenarios. -/

/-- C4 (amended): the worker's compatibility score equals 50 when the two
entries' interest-tag sets intersect (once, not per tag), plus one point per
full 10 seconds each entry has waited, plus 10 when the join instants are
less than 2 minutes apart, minus 40 when a match between the two users was
created within the last 7 days (the `recentMatch` lookup result); two
entries sharing one tag and joined at the same instant score 60 at the join
instant; and two entries with no shared tags and waits of 35 s and 5 s —
whose join instants are therefore 30 s apart, inside the 2-minute window —
score 3 + 10 = 13. -/
theorem c4_score_formula_and_scenarios :
    (∀ (a b : QueueUser) (now : Int) (r : Bool),
      computeScore a b now r =
        (if ∃ t, t ∈ a.intentTagIds ∧ t ∈ b.intentTagIds then (50 : Int) else 0)
        + (now - a.timestampJoined).fdiv 10000
        + (now - b.timestampJoined).fdiv 10000
        + (if |a.timestampJoined - b.timestampJoined| < 120000 then 10 else 0)
        + (if r then -40 else 0))
    ∧ computeScore ⟨"a", ["t"], 1000⟩ ⟨"b", ["t"], 1000⟩ 1000 false = 60
    ∧ computeScore ⟨"a", [], 965000⟩ ⟨"b", [], 995000⟩ 1000000 false = 13 := by
  refine ⟨fun a b now r => ?_, by decide, by decide⟩
  rw [computeScore_eq]
  simp only [sharedIntents_pos, SHARED_INTENT, RECENT_ACTIVITY_WINDOW_MS,
    RECENT_ACTIVITY, CONVERSATION_FATIGUE]
  norm_num

/-- C4 (counterexample): the spec's Scenario 4 cannot be instantiated — two
entries observed at the same instant with waits of 35 s and 5 s necessarily
joined exactly 30 s apart, so their join instants cannot differ by more than
2 minutes; for the pair that does have those waits the recency bonus fires
and the score is 13, not 3. -/
theorem c4_scenario4_impossible :
    (¬ ∃ (a b : QueueUser) (now : Int),
        now - a.timestampJoined = 35000 ∧ now - b.timestampJoined = 5000 ∧
        120000 < |a.timestampJoined - b.timestampJoined|)
    ∧ computeScore ⟨"a", [], 965000⟩ ⟨"b", [], 995000⟩ 1000000 false = 13
    ∧ |(965000 : Int) - 995000| = 30000 := by
  refine ⟨?_, by decide, by decide⟩
  rintro ⟨a, b, now, h1, h2, h3⟩
  have h4 : a.timestampJoined - b.timestampJoined = -30000 := by omega
  rw [h4] at h3
  norm_num at h3

/-! Claim C5 — score symmetry. -/

/-- C5 (amended): the background worker's compatibility score is symmetric —
swapping the two entries leaves the score unchanged, for the pure formula at
any fatigue-lookup outcome and for the fatigue lookup itself. -/
theorem c5_worker_score_symmetric :
    (∀ (a b : QueueUser) (now : Int) (r : Bool),
      computeScore a b now r = computeScore b a now r)
    ∧ ∀ (db : Db) (a b : String) (now : Int),
        checkRecentMatch db a b now = checkRecentMatch db b a now := by
  constructor
  · intro a b now r
    have hs : (0 < (sharedIntents a b).length) = (0 < (sharedIntents b a).length) := by
      simp only [sharedIntents_pos]
      exact propext ⟨fun ⟨t, h1, h2⟩ => ⟨t, h2, h1⟩, fun ⟨t, h1, h2⟩ => ⟨t, h2, h1⟩⟩
    simp only [computeScore_eq, hs, abs_sub_comm b.timestampJoined a.timestampJoined]
    ring
  · intro db a b now
    unfold checkRecentMatch
    congr 1
    funext m
    rw [Bool.or_comm]

/-- C5 (counterexample): the request-time scoring path is not symmetric.
With no shared tags and no fatigue, a requester who joined at 970000 scoring
a candidate who joined at 1000000 (observed at 1000000) gets 10, while the
roles swapped give 13, because only the candidate's wait is counted. -/
theorem c5_request_score_asymmetric :
    requestScore 970000 [] 1000000 [] 1000000 false = 10 ∧
    requestScore 1000000 [] 970000 [] 1000000 false = 13 ∧
    requestScore 970000 [] 1000000 [] 1000000 false ≠
      requestScore 1000000 [] 970000 [] 1000000 false := by decide

/-! Claim C9 — what the safety filter actually vetoes. -/

/-- C9 (amended): the engine's safety filter permits a pairing exactly when
no block row exists between the two users in either direction, no report row
exists between them in either direction — regardless of the report's
resolution status — and neither user is suspended. -/
theorem c9_filter_characterization (db : Db) (a b : String) :
    isPermitted db a b = true ↔
      (∀ p ∈ db.blocks, ¬((p.1 = a ∧ p.2 = b) ∨ (p.1 = b ∧ p.2 = a))) ∧
      (∀ r ∈ db.reports,
        ¬((r.reportedBy = a ∧ r.targetUserId = b) ∨
          (r.reportedBy = b ∧ r.targetUserId = a))) ∧
      a ∉ db.suspended ∧ b ∉ db.suspended := by
  have hsusp : (∀ u ∈ db.suspended, ¬(u = a ∨ u = b)) ↔
      a ∉ db.suspended ∧ b ∉ db.suspended := by
    constructor
    · intro h
      exact ⟨fun ha => h a ha (Or.inl rfl), fun hb2 => h b hb2 (Or.inr rfl)⟩
    · rintro ⟨h1, h2⟩ u hu hor
      rcases hor with h | h
      · exact h1 (h ▸ hu)
      · exact h2 (h ▸ hu)
  unfold isPermitted checkBlocked checkReported checkSuspended
  simp only [Bool.and_eq_true, Bool.not_eq_true', List.any_eq_false,
    Bool.or_eq_true, beq_iff_eq]
  rw [← hsusp, and_assoc]

/-- C9 (counterexample): a pair whose only relation is a single report with
status "resolved" — no blocks, neither suspended — is still vetoed by the
filter, because the report query does not restrict on status. -/
theorem c9_resolved_report_vetoes :
    isPermitted ⟨[], [], [⟨"alice", "bob", "resolved"⟩], []⟩ "alice" "bob" = false ∧
    checkReported ⟨[], [], [⟨"alice", "bob", "resolved"⟩], []⟩ "alice" "bob" = true ∧
    checkBlocked ⟨[], [], [⟨"alice", "bob", "resolved"⟩], []⟩ "alice" "bob" = false ∧
    checkSuspended ⟨[], [], [⟨"alice", "bob", "resolved"⟩], []⟩ "alice" "bob" = false := by
  decide

/-! Claim C7 — cooldown enforcement in the request route. -/

/-- C7 (confirmed): for a user with no active match whose most recent match
ended at `T`, a request at `now < T + 5 min` is rejected with the remaining
wait `ceil((T + cooldown - now) / 1000)` whole seconds (the bounds conjuncts
pin the ceiling semantics), and a request at `now ≥ T + 5 min` is not
rejected for cooldown — it enters the queue and reports waiting. -/
theorem c7_cooldown_enforcement (s : WorldState) (u : String) (tags : List String)
    (T now : Int) (hact : findActiveMatch s.db u = none)
    (hlast : lastEndedAt s.db u = some T) :
    (now < T + MATCH_COOLDOWN_MS →
      (requestMatch s u tags now).1 =
        .cooldown (ceilSeconds (T + MATCH_COOLDOWN_MS - now)) ∧
      (ceilSeconds (T + MATCH_COOLDOWN_MS - now) - 1) * 1000 < T + MATCH_COOLDOWN_MS - now ∧
      T + MATCH_COOLDOWN_MS - now ≤ ceilSeconds (T + MATCH_COOLDOWN_MS - now) * 1000)
    ∧ (T + MATCH_COOLDOWN_MS ≤ now → (requestMatch s u tags now).1 = .waiting) := by
  simp only [requestMatch, hact, hlast]
  constructor
  · intro h
    rw [if_pos h]
    refine ⟨rfl, ?_, ?_⟩ <;>
      · rw [ceilSeconds, Int.fdiv_eq_ediv _ (by norm_num)]
        omega
  · intro h
    rw [if_neg (not_lt.mpr h)]

/-- C7 (witness): a user whose only match ended at 100000 and who requests
again at 200000 — 200 s before the cooldown expires — receives the cooldown
rejection with 200 remaining seconds. -/
theorem c7_cooldown_witness :
    (requestMatch
        ⟨[], ⟨[⟨0, "alice", "bob", "ended", 0, some 100000, some 100⟩], [], [], []⟩⟩
        "alice" [] 200000).1 =
      RequestResult.cooldown (ceilSeconds (100000 + MATCH_COOLDOWN_MS - 200000)) :=
  ((c7_cooldown_enforcement
      ⟨[], ⟨[⟨0, "alice", "bob", "ended", 0, some 100000, some 100⟩], [], [], []⟩⟩
      "alice" [] 100000 200000 (by decide) (by decide)).1
    (by norm_num [MATCH_COOLDOWN_MS])).1

/-! Claim C8 — at most one live waiting entry per user. -/

/-- C8 (amended): the database-queue variant of the request route checks for
an existing queue row for the user and skips insertion when one exists, so
it never takes a user's number of live queue rows above one. -/
theorem c8_db_queue_no_duplicate (q : List QueueUser) (u u' : String)
    (tags : List String) (now : Int)
    (h : (q.filter fun e => e.userId == u').length ≤ 1) :
    ((matchQueueEnqueue q u tags now).filter fun e => e.userId == u').length ≤ 1 := by
  unfold matchQueueEnqueue
  split
  · exact h
  · rename_i hany
    rw [List.filter_append, List.length_append]
    by_cases hu : u = u'
    · have hq : (q.filter fun e => e.userId == u').length = 0 := by
        rw [List.length_eq_zero, List.filter_eq_nil_iff]
        intro e he
        rw [← hu]
        exact List.any_eq_false.mp (Bool.eq_false_iff.mpr hany) e he
      have hone : ((([⟨u, tags, now⟩] : List QueueUser).filter
          fun e => e.userId == u').length) ≤ 1 := by
        simpa using List.length_filter_le (fun e : QueueUser => e.userId == u')
          ([⟨u, tags, now⟩] : List QueueUser)
      omega
    · have : ((([⟨u, tags, now⟩] : List QueueUser).filter
          fun e => e.userId == u').length) = 0 := by
        simp [hu]
      omega

/-- C8 (counterexample): the Redis request route inserts unconditionally —
two requests by the same user (with no matches on file) at 0 and at 1000
both answer waiting and leave two live queue entries for that user. -/
theorem c8_redis_duplicate_entries :
    ((run initState [.request "alice" [] 0, .request "alice" [] 1000]).queue.filter
      fun e => e.userId == "alice").length = 2 ∧
    (requestMatch (run initState [.request "alice" [] 0]) "alice" [] 1000).1 =
      .waiting := by
  decide

/-- C8 (witness): the no-duplicate theorem applied to a one-entry queue into
which the same user is enqueued again. -/
theorem c8_db_queue_witness :
    ((matchQueueEnqueue [⟨"alice", [], 0⟩] "alice" [] 1000).filter
      fun e => e.userId == "alice").length ≤ 1 :=
  c8_db_queue_no_duplicate [⟨"alice", [], 0⟩] "alice" "alice" [] 1000 (by decide)

/-! Claim C3 — lookup failure aborts the pass with no state change. -/

/-- C3 (confirmed): when any safety or fatigue lookup of the scan throws,
the exception reaches the worker's catch block before any mutation: no
match is created, no queue entry is removed, and the whole engine state is
returned unchanged. -/
theorem c3_lookup_failure_aborts_pass (lkScan lkCommit : Lookups) (s : WorldState)
    (now : Int) (h : scanPairs lkScan s.queue now = .error ()) :
    processMatchmakingQueue lkScan lkCommit s now = s := by
  unfold processMatchmakingQueue
  split
  · rfl
  · rw [h]

/-- C3 (witness): a pass over a two-user queue in which every lookup throws
leaves the queue and the database exactly as they were. -/
theorem c3_failure_witness :
    processMatchmakingQueue
      ⟨fun _ _ => .error (), fun _ _ => .error (), fun _ _ => .error (),
        fun _ _ => .error ()⟩
      ⟨fun _ _ => .error (), fun _ _ => .error (), fun _ _ => .error (),
        fun _ _ => .error ()⟩
      ⟨[⟨"alice", [], 0⟩, ⟨"bob", [], 0⟩], ⟨[], [], [], []⟩⟩ 5000 =
    ⟨[⟨"alice", [], 0⟩, ⟨"bob", [], 0⟩], ⟨[], [], [], []⟩⟩ :=
  c3_lookup_failure_aborts_pass _ _ _ 5000 rfl

/-- One scan-loop iteration either keeps the accumulator or stores the
current pair with the facts the lookups just established. -/
lemma considerPair_ok_cases (lk : Lookups) (now : Int) (acc : Option Best)
    (p : QueueUser × QueueUser) (acc' : Option Best)
    (h : considerPair lk now acc p = .ok acc') :
    acc' = acc ∨ ∃ b, acc' = some b ∧ ScanSelected lk now p b := by
  unfold considerPair at h
  cases hb : lk.blocked p.1.userId p.2.userId with
  | error e => simp [hb] at h
  | ok vb =>
    cases vb with
    | true =>
      simp [hb] at h
      exact Or.inl h.symm
    | false =>
      cases hr : lk.reported p.1.userId p.2.userId with
      | error e => simp [hb, hr] at h
      | ok vr =>
        cases vr with
        | true =>
          simp [hb, hr] at h
          exact Or.inl h.symm
        | false =>
          cases hs : lk.suspended p.1.userId p.2.userId with
          | error e => simp [hb, hr, hs] at h
          | ok vs =>
            cases vs with
            | true =>
              simp [hb, hr, hs] at h
              exact Or.inl h.symm
            | false =>
              cases hm : lk.recentMatch p.1.userId p.2.userId with
              | error e => simp [hb, hr, hs, hm] at h
              | ok r =>
                simp only [hb, hr, hs, hm] at h
                cases acc with
                | none =>
                  simp only [Except.ok.injEq] at h
                  exact Or.inr ⟨⟨p.1, p.2, computeScore p.1 p.2 now r⟩, h.symm,
                    rfl, rfl, hb, hr, hs, r, hm, rfl⟩
                | some b0 =>
                  by_cases hgt : computeScore p.1 p.2 now r > b0.score
                  · simp only [hgt, if_true, Except.ok.injEq] at h
                    exact Or.inr ⟨⟨p.1, p.2, computeScore p.1 p.2 now r⟩, h.symm,
                      rfl, rfl, hb, hr, hs, r, hm, rfl⟩
                  · simp only [hgt, if_false, Except.ok.injEq] at h
                    exact Or.inl h.symm

/-- Any best pair produced by folding the scan body over a pair list either
was already the accumulator or arose from one of the scanned pairs. -/
lemma foldlM_considerPair_selected (lk : Lookups) (now : Int) :
    ∀ (ps : List (QueueUser × QueueUser)) (acc acc' : Option Best),
      ps.foldlM (considerPair lk now) acc = .ok acc' →
      ∀ b, acc' = some b →
        acc = some b ∨ ∃ p ∈ ps, ScanSelected lk now p b := by
  intro ps
  induction ps with
  | nil =>
    intro acc acc' hfold b hb
    simp only [List.foldlM_nil, pure, Except.pure, Except.ok.injEq] at hfold
    exact Or.inl (hfold.trans hb)
  | cons q ps ih =>
    intro acc acc' hfold b hb
    rw [List.foldlM_cons] at hfold
    cases hq : considerPair lk now acc q with
    | error e => rw [hq] at hfold; simp [bind, Except.bind] at hfold
    | ok acc1 =>
      rw [hq] at hfold
      simp only [bind, Except.bind] at hfold
      rcases ih acc1 acc' hfold b hb with h1 | ⟨p, hp, hsel⟩
      · rcases considerPair_ok_cases lk now acc q acc1 hq with h2 | ⟨b2, hb2, hsel2⟩
        · exact Or.inl (h2 ▸ h1)
        · refine Or.inr ⟨q, List.mem_cons_self q ps, ?_⟩
          have hbb : b = b2 := Option.some_inj.mp ((h1.symm.trans hb2))
          exact hbb ▸ hsel2
      · exact Or.inr ⟨p, List.mem_cons_of_mem q hp, hsel⟩

/-- A pair selected by a whole scan arose from some scanned pair and passed
its safety lookups at scan time. -/
lemma scan_ok_selected (lk : Lookups) (q : List QueueUser) (now : Int) (b : Best)
    (h : scanPairs lk q now = .ok (some b)) :
    ∃ p ∈ allPairs q, ScanSelected lk now p b := by
  rcases foldlM_considerPair_selected lk now (allPairs q) none (some b) h b rfl with
    h1 | h2
  · cases h1
  · exact h2

/-- Both components of a scanned pair are members of the snapshot. -/
lemma mem_allPairs : ∀ (l : List QueueUser) (p : QueueUser × QueueUser),
    p ∈ allPairs l → p.1 ∈ l ∧ p.2 ∈ l := by
  intro l
  induction l with
  | nil => intro p hp; simp [allPairs] at hp
  | cons x xs ih =>
    intro p hp
    rw [allPairs, List.mem_append] at hp
    rcases hp with hm | hm
    · rcases List.mem_map.mp hm with ⟨y, hy, rfl⟩
      exact ⟨List.mem_cons_self x xs, List.mem_cons_of_mem x hy⟩
    · rcases ih p hm with ⟨h1, h2⟩
      exact ⟨List.mem_cons_of_mem x h1, List.mem_cons_of_mem x h2⟩

/-- A pairwise property of the snapshot holds of every scanned pair. -/
lemma allPairs_pairwise {R : QueueUser → QueueUser → Prop} :
    ∀ (l : List QueueUser), l.Pairwise R →
      ∀ p ∈ allPairs l, R p.1 p.2 := by
  intro l
  induction l with
  | nil => intro _ p hp; simp [allPairs] at hp
  | cons x xs ih =>
    intro hpw p hp
    rw [allPairs, List.mem_append] at hp
    rcases List.pairwise_cons.mp hpw with ⟨hx, hxs⟩
    rcases hp with hm | hm
    · rcases List.mem_map.mp hm with ⟨y, hy, rfl⟩
      exact hx y hy
    · exact ih hxs p hm

/-- The scan body never decreases the stored best score. -/
lemma considerPair_score_mono (lk : Lookups) (now : Int) (acc : Option Best)
    (p : QueueUser × QueueUser) (acc' : Option Best)
    (h : considerPair lk now acc p = .ok acc') (b0 : Best) (hacc : acc = some b0) :
    ∃ b1, acc' = some b1 ∧ b0.score ≤ b1.score := by
  subst hacc
  unfold considerPair at h
  cases hb : lk.blocked p.1.userId p.2.userId with
  | error e => simp [hb] at h
  | ok vb =>
    cases vb with
    | true => simp [hb] at h; exact ⟨b0, h.symm, le_refl _⟩
    | false =>
      cases hr : lk.reported p.1.userId p.2.userId with
      | error e => simp [hb, hr] at h
      | ok vr =>
        cases vr with
        | true => simp [hb, hr] at h; exact ⟨b0, h.symm, le_refl _⟩
        | false =>
          cases hs : lk.suspended p.1.userId p.2.userId with
          | error e => simp [hb, hr, hs] at h
          | ok vs =>
            cases vs with
            | true => simp [hb, hr, hs] at h; exact ⟨b0, h.symm, le_refl _⟩
            | false =>
              cases hm : lk.recentMatch p.1.userId p.2.userId with
              | error e => simp [hb, hr, hs, hm] at h
              | ok r =>
                simp only [hb, hr, hs, hm] at h
                by_cases hgt : computeScore p.1 p.2 now r > b0.score
                · simp only [hgt, if_true, Except.ok.injEq] at h
                  exact ⟨⟨p.1, p.2, computeScore p.1 p.2 now r⟩, h.symm, le_of_lt hgt⟩
                · simp only [hgt, if_false, Except.ok.injEq] at h
                  exact ⟨b0, h.symm, le_refl _⟩

/-- Folding the scan body never decreases the stored best score. -/
lemma foldlM_considerPair_mono (lk : Lookups) (now : Int) :
    ∀ (ps : List (QueueUser × QueueUser)) (acc acc' : Option Best),
      ps.foldlM (considerPair lk now) acc = .ok acc' →
      ∀ b0, acc = some b0 → ∃ b1, acc' = some b1 ∧ b0.score ≤ b1.score := by
  intro ps
  induction ps with
  | nil =>
    intro acc acc' hfold b0 hacc
    simp only [List.foldlM_nil, pure, Except.pure, Except.ok.injEq] at hfold
    exact ⟨b0, hfold ▸ hacc, le_refl _⟩
  | cons q ps ih =>
    intro acc acc' hfold b0 hacc
    rw [List.foldlM_cons] at hfold
    cases hq : considerPair lk now acc q with
    | error e => rw [hq] at hfold; simp [bind, Except.bind] at hfold
    | ok acc1 =>
      rw [hq] at hfold
      simp only [bind, Except.bind] at hfold
      rcases considerPair_score_mono lk now acc q acc1 hq b0 hacc with ⟨b1, hb1, hle1⟩
      rcases ih acc1 acc' hfold b1 hb1 with ⟨b2, hb2, hle2⟩
      exact ⟨b2, hb2, le_trans hle1 hle2⟩

/-- On a pair whose lookups all pass, the scan body yields a stored best
pair whose score dominates that pairs score. -/
lemma considerPair_passes (lk : Lookups) (now : Int) (acc : Option Best)
    (p : QueueUser × QueueUser) (r : Bool)
    (hb : lk.blocked p.1.userId p.2.userId = .ok false)
    (hr : lk.reported p.1.userId p.2.userId = .ok false)
    (hs : lk.suspended p.1.userId p.2.userId = .ok false)
    (hm : lk.recentMatch p.1.userId p.2.userId = .ok r) :
    ∃ b1, considerPair lk now acc p = .ok (some b1) ∧
      computeScore p.1 p.2 now r ≤ b1.score := by
  cases acc with
  | none =>
    unfold considerPair
    simp only [hb, hr, hs, hm]
    exact ⟨⟨p.1, p.2, computeScore p.1 p.2 now r⟩, rfl, le_refl _⟩
  | some b0 =>
    unfold considerPair
    simp only [hb, hr, hs, hm]
    by_cases hgt : computeScore p.1 p.2 now r > b0.score
    · rw [if_pos hgt]
      exact ⟨⟨p.1, p.2, computeScore p.1 p.2 now r⟩, rfl, le_refl _⟩
    · rw [if_neg hgt]
      exact ⟨b0, rfl, not_lt.mp hgt⟩

/-- The final best score dominates the score of every scanned pair whose
lookups pass. -/
lemma foldlM_considerPair_dominates (lk : Lookups) (now : Int) :
    ∀ (ps : List (QueueUser × QueueUser)) (acc acc' : Option Best),
      ps.foldlM (considerPair lk now) acc = .ok acc' →
      ∀ p ∈ ps, ∀ r : Bool,
        lk.blocked p.1.userId p.2.userId = .ok false →
        lk.reported p.1.userId p.2.userId = .ok false →
        lk.suspended p.1.userId p.2.userId = .ok false →
        lk.recentMatch p.1.userId p.2.userId = .ok r →
        ∃ b1, acc' = some b1 ∧ computeScore p.1 p.2 now r ≤ b1.score := by
  intro ps
  induction ps with
  | nil => intro acc acc' _ p hp; cases hp
  | cons q ps ih =>
    intro acc acc' hfold p hp r hb hr hs hm
    rw [List.foldlM_cons] at hfold
    cases hq : considerPair lk now acc q with
    | error e => rw [hq] at hfold; simp [bind, Except.bind] at hfold
    | ok acc1 =>
      rw [hq] at hfold
      simp only [bind, Except.bind] at hfold
      rcases List.mem_cons.mp hp with rfl | hmem
      · rcases considerPair_passes lk now acc p r hb hr hs hm with ⟨b1, hb1, hle1⟩
        have hacc1 : acc1 = some b1 := by
          rw [hq] at hb1
          exact (Except.ok.injEq _ _ ▸ hb1 : _)
        rcases foldlM_considerPair_mono lk now ps acc1 acc' hfold b1 hacc1 with
          ⟨b2, hb2, hle2⟩
        exact ⟨b2, hb2, le_trans hle1 hle2⟩
      · exact ih acc1 acc' hfold p hmem r hb hr hs hm

/-- C6 (amended): the pair the scan hands to match creation is one of the
scanned pairs, passed its safety lookups at scan time, and its score is
maximal among all scanned pairs whose safety lookups pass; ties, however,
are broken by snapshot enumeration order — the first maximal pair of the
i < j scan wins (see the counterexample) — not by join timestamps or by
identifier comparison. -/
theorem c6_selection_maximality (lk : Lookups) (q : List QueueUser) (now : Int)
    (best : Best) (hscan : scanPairs lk q now = .ok (some best)) :
    (∃ p ∈ allPairs q, ScanSelected lk now p best) ∧
    ∀ p ∈ allPairs q, ∀ r : Bool,
      lk.blocked p.1.userId p.2.userId = .ok false →
      lk.reported p.1.userId p.2.userId = .ok false →
      lk.suspended p.1.userId p.2.userId = .ok false →
      lk.recentMatch p.1.userId p.2.userId = .ok r →
      computeScore p.1 p.2 now r ≤ best.score := by
  refine ⟨scan_ok_selected lk q now best hscan, ?_⟩
  intro p hp r hb hr hs hm
  rcases foldlM_considerPair_dominates lk now (allPairs q) none (some best) hscan
      p hp r hb hr hs hm with ⟨b1, hb1, hle⟩
  cases Option.some_inj.mp hb1
  exact hle

/-- C6 (witness): the selection theorem applied to a concrete two-user
snapshot whose scan selects the pair with score 60. -/
theorem c6_witness_app :
    ∃ p ∈ allPairs [⟨"alice", ["t"], 0⟩, ⟨"bob", ["t"], 0⟩],
      ScanSelected (dbLookups ⟨[], [], [], []⟩ 9000) 9000 p
        ⟨⟨"alice", ["t"], 0⟩, ⟨"bob", ["t"], 0⟩, 60⟩ :=
  (c6_selection_maximality (dbLookups ⟨[], [], [], []⟩ 9000)
    [⟨"alice", ["t"], 0⟩, ⟨"bob", ["t"], 0⟩] 9000
    ⟨⟨"alice", ["t"], 0⟩, ⟨"bob", ["t"], 0⟩, 60⟩ rfl).1

/-- C6 (counterexample): on the snapshot u0,u1,u2,u3 (in join order) the
pairs (u0,u3) and (u1,u2) both score 60 and are both permitted, and
(u1,u2) has the earlier combined join timestamp (2500 < 3000), yet the scan
selects (u0,u3) — the first maximal pair in enumeration order; re-ordering
the same snapshot makes it select (u1,u2), so the selection also depends on
the snapshot's enumeration order. -/
theorem c6_tiebreak_counterexample :
    scanPairs (dbLookups ⟨[], [], [], []⟩ 9000)
      [⟨"u0", ["x"], 0⟩, ⟨"u1", ["y"], 1000⟩, ⟨"u2", ["y"], 1500⟩, ⟨"u3", ["x"], 3000⟩]
      9000 =
      .ok (some ⟨⟨"u0", ["x"], 0⟩, ⟨"u3", ["x"], 3000⟩, 60⟩) ∧
    computeScore ⟨"u1", ["y"], 1000⟩ ⟨"u2", ["y"], 1500⟩ 9000 false = 60 ∧
    isPermitted ⟨[], [], [], []⟩ "u1" "u2" = true ∧
    (1000 : Int) + 1500 < 0 + 3000 ∧
    scanPairs (dbLookups ⟨[], [], [], []⟩ 9000)
      [⟨"u1", ["y"], 1000⟩, ⟨"u2", ["y"], 1500⟩, ⟨"u0", ["x"], 0⟩, ⟨"u3", ["x"], 3000⟩]
      9000 =
      .ok (some ⟨⟨"u1", ["y"], 1000⟩, ⟨"u2", ["y"], 1500⟩, 60⟩) := by
  refine ⟨rfl, by decide, by decide, by decide, rfl⟩

/-- C2 (amended): when the scan selects a pair, the pass appends exactly one
active match record for that pair, and the pair passed the safety lookups
as evaluated during the scan; no lookup is re-run at commit time, so this
is the only safety guarantee the created record carries. -/
theorem c2_commit_uses_scan_facts (lkScan lkCommit : Lookups) (s : WorldState)
    (now : Int) (best : Best) (h2 : ¬ s.queue.length < 2)
    (hscan : scanPairs lkScan s.queue now = .ok (some best)) :
    (processMatchmakingQueue lkScan lkCommit s now).db.privateMatches =
      s.db.privateMatches ++
        [⟨s.db.privateMatches.length, best.userA.userId, best.userB.userId,
          "active", now, none, none⟩] ∧
    ∃ p ∈ allPairs s.queue, ScanSelected lkScan now p best := by
  refine ⟨?_, scan_ok_selected lkScan s.queue now best hscan⟩
  unfold processMatchmakingQueue
  rw [if_neg h2, hscan]
  rfl

/-- C2 (witness): the commit theorem applied to a concrete two-user queue
whose scan (against pre-change facts) selects the pair. -/
theorem c2_witness_app :
    (processMatchmakingQueue (dbLookups ⟨[], [], [], []⟩ 0)
        (dbLookups ⟨[], [("alice", "bob")], [], []⟩ 0)
        ⟨[⟨"alice", ["t"], 0⟩, ⟨"bob", ["t"], 0⟩],
          ⟨[], [("alice", "bob")], [], []⟩⟩ 0).db.privateMatches =
      [] ++ [⟨0, "alice", "bob", "active", 0, none, none⟩] :=
  (c2_commit_uses_scan_facts (dbLookups ⟨[], [], [], []⟩ 0)
    (dbLookups ⟨[], [("alice", "bob")], [], []⟩ 0)
    ⟨[⟨"alice", ["t"], 0⟩, ⟨"bob", ["t"], 0⟩], ⟨[], [("alice", "bob")], [], []⟩⟩
    0 ⟨⟨"alice", ["t"], 0⟩, ⟨"bob", ["t"], 0⟩, 60⟩ (by decide) rfl).1

/-- C2 (counterexample): with scan-time lookups reading a state with no
blocks while the database at commit time holds a block between the two
users, the pass still creates the active match — the filter is not
re-checked before committing, so the pair fails `isPermitted` on the
database into which its match record is inserted. -/
theorem c2_stale_safety_committed :
    (processMatchmakingQueue (dbLookups ⟨[], [], [], []⟩ 0)
        (dbLookups ⟨[], [("alice", "bob")], [], []⟩ 0)
        ⟨[⟨"alice", ["t"], 0⟩, ⟨"bob", ["t"], 0⟩],
          ⟨[], [("alice", "bob")], [], []⟩⟩ 0).db.privateMatches =
      [⟨0, "alice", "bob", "active", 0, none, none⟩] ∧
    isPermitted ⟨[], [("alice", "bob")], [], []⟩ "alice" "bob" = false := by
  refine ⟨rfl, by decide⟩

/-- C10 (amended): when all queue entries carry pairwise-distinct user ids,
the i < j scan can only select a pair of distinct users, so no self-match is
created from such a snapshot. -/
theorem c10_distinct_users_no_self_pair (lk : Lookups) (q : List QueueUser)
    (now : Int) (best : Best)
    (hdist : q.Pairwise fun a b => a.userId ≠ b.userId)
    (hscan : scanPairs lk q now = .ok (some best)) :
    best.userA.userId ≠ best.userB.userId := by
  rcases scan_ok_selected lk q now best hscan with ⟨p, hp, hA, hB, _⟩
  rw [hA, hB]
  exact allPairs_pairwise q hdist p hp

/-- C10 (witness): the distinctness theorem applied to a concrete two-user
snapshot. -/
theorem c10_witness_app :
    (Best.mk ⟨"alice", ["t"], 0⟩ ⟨"bob", ["t"], 0⟩ 60).userA.userId ≠
      (Best.mk ⟨"alice", ["t"], 0⟩ ⟨"bob", ["t"], 0⟩ 60).userB.userId :=
  c10_distinct_users_no_self_pair (dbLookups ⟨[], [], [], []⟩ 9000)
    [⟨"alice", ["t"], 0⟩, ⟨"bob", ["t"], 0⟩] 9000
    ⟨⟨"alice", ["t"], 0⟩, ⟨"bob", ["t"], 0⟩, 60⟩ (by simp) rfl

/-- C10 (counterexample): two RequestMatch calls by the same user insert two
distinct queue entries (nothing stops them), and the next pass pairs those
two entries with each other, creating a MatchRecord whose two participant
identifiers are both that user. -/
theorem c10_self_match_reachable :
    (run initState
      [.request "alice" ["t"] 0, .request "alice" ["t"] 11000,
       .pass (dbLookups ⟨[], [], [], []⟩ 12000) 12000]).db.privateMatches =
      [⟨0, "alice", "alice", "active", 12000, none, none⟩] := rfl

/-- A user with no active match found has active-record count zero. -/
lemma countActive_zero_of_find_none (db : Db) (u : String)
    (h : findActiveMatch db u = none) : countActive db u = 0 := by
  unfold findActiveMatch at h
  unfold countActive
  rw [List.length_eq_zero, List.filter_eq_nil_iff]
  exact fun m hm => by
    have := List.find?_eq_none.mp h m hm
    simpa using this

/-- Membership after a `zadd`: an element of the new queue was already
present or is the inserted entry. -/
lemma mem_zaddEntry (q : List QueueUser) (e e' : QueueUser)
    (h : e' ∈ zaddEntry q e) : e' ∈ q ∨ e' = e := by
  unfold zaddEntry at h
  split at h
  · exact Or.inl h
  · rcases List.mem_append.mp h with h1 | h1
    · exact Or.inl h1
    · exact Or.inr (List.mem_singleton.mp h1)

/-- The request route preserves the active-match invariant: it enqueues
only users it has just verified to hold no active match. -/
lemma inv_requestMatch (s : WorldState) (u : String) (tags : List String)
    (now : Int) (hinv : ActiveInvariant s) :
    ActiveInvariant (requestMatch s u tags now).2 := by
  rcases hinv with ⟨h1, h2⟩
  cases hact : findActiveMatch s.db u with
  | some m =>
    simp only [requestMatch, hact]
    exact ⟨h1, h2⟩
  | none =>
    have hzero : countActive s.db u = 0 := countActive_zero_of_find_none s.db u hact
    have henq : ActiveInvariant
        ⟨zaddEntry s.queue ⟨u, tags, now⟩, s.db⟩ := by
      refine ⟨h1, fun e he => ?_⟩
      rcases mem_zaddEntry s.queue ⟨u, tags, now⟩ e he with hm | rfl
      · exact h2 e hm
      · exact hzero
    cases hlast : lastEndedAt s.db u with
    | some t =>
      simp only [requestMatch, hact, hlast]
      by_cases hcool : now < t + MATCH_COOLDOWN_MS
      · rw [if_pos hcool]
        exact ⟨h1, h2⟩
      · rw [if_neg hcool]
        exact henq
    | none =>
      simp only [requestMatch, hact, hlast]
      exact henq

/-- Cancellation preserves the active-match invariant. -/
lemma inv_cancelMatch (s : WorldState) (u : String) (hinv : ActiveInvariant s) :
    ActiveInvariant (cancelMatch s u) := by
  rcases hinv with ⟨h1, h2⟩
  exact ⟨h1, fun e he => h2 e (List.mem_filter.mp he).1⟩

/-- Mapping with a function that never makes the predicate newly true does
not increase the filtered length. -/
lemma length_filter_map_le {α : Type} (l : List α) (g : α → α) (p : α → Bool)
    (hg : ∀ x ∈ l, p (g x) = true → p x = true) :
    ((l.map g).filter p).length ≤ (l.filter p).length := by
  induction l with
  | nil => simp
  | cons x xs ih =>
    have ihx := ih fun y hy => hg y (List.mem_cons_of_mem x hy)
    have hgx := hg x (List.mem_cons_self x xs)
    rw [List.map_cons, List.filter_cons, List.filter_cons]
    by_cases hpg : p (g x) = true
    · rw [if_pos hpg, if_pos (hgx hpg)]
      simpa using ihx
    · rw [if_neg hpg]
      by_cases hpx : p x = true
      · rw [if_pos hpx]
        simp only [List.length_cons]
        omega
      · rw [if_neg hpx]
        exact ihx

/-- Ending a match preserves the active-match invariant: the update only
turns active records into ended ones. -/
lemma inv_endMatch (s : WorldState) (mid : Nat) (u : String) (now : Int)
    (hinv : ActiveInvariant s) : ActiveInvariant (endMatch s mid u now).2 := by
  rcases hinv with ⟨h1, h2⟩
  cases hfind : s.db.privateMatches.find? (fun m =>
      m.mid == mid && (m.userOneId == u || m.userTwoId == u) && m.status == "active") with
  | none =>
    simp only [endMatch, hfind]
    exact ⟨h1, h2⟩
  | some m =>
    simp only [endMatch, hfind]
    have key : ∀ u', countActive
        ⟨s.db.privateMatches.map (fun x =>
          if x.mid == mid then
            { x with
                status := "ended",
                endedAt := some now,
                durationSeconds := some ((now - m.matchedAt).fdiv 1000) }
          else x), s.db.blocks, s.db.reports, s.db.suspended⟩ u' ≤
        countActive s.db u' := by
      intro u'
      unfold countActive
      apply length_filter_map_le
      intro x _ hx
      by_cases hmid : (x.mid == mid) = true
      · rw [if_pos hmid] at hx
        simp at hx
      · rw [if_neg hmid] at hx
        exact hx
    exact ⟨fun u' => le_trans (key u') (h1 u'),
      fun e he => Nat.le_zero.mp (le_trans (key e.userId) (Nat.le_of_eq (h2 e he)))⟩

/-- Creating a match adds one active record counting for exactly the two
named users. -/
lemma countActive_createMatch (db : Db) (a b : String) (now : Int) (u' : String) :
    countActive (createMatch db a b now).1 u' =
      countActive db u' + (if (a == u' || b == u') = true then 1 else 0) := by
  unfold createMatch countActive
  rw [List.filter_append, List.length_append]
  congr 1
  by_cases h : (a == u' || b == u') = true
  · rw [if_pos h]
    simp [h]
  · rw [if_neg h]
    simp only [List.filter, Bool.and_eq_true]
    simp [h]

/-- A worker pass preserves the active-match invariant: the selected pair
comes from the queue — whose members hold no active match — and both users
are removed from the queue once their match is created. -/
lemma inv_processPass (lkScan lkCommit : Lookups) (s : WorldState) (now : Int)
    (hinv : ActiveInvariant s) :
    ActiveInvariant (processMatchmakingQueue lkScan lkCommit s now) := by
  rcases hinv with ⟨h1, h2⟩
  unfold processMatchmakingQueue
  split
  · exact ⟨h1, h2⟩
  · cases hscan : scanPairs lkScan s.queue now with
    | error e => exact ⟨h1, h2⟩
    | ok obest =>
      cases obest with
      | none =>
        show ActiveInvariant ⟨reap s.queue s.queue now, s.db⟩
        refine ⟨h1, fun e he => ?_⟩
        exact h2 e (List.mem_filter.mp he).1
      | some best =>
        show ActiveInvariant
          ⟨reap s.queue
            (s.queue.filter fun e =>
              !(e.userId == best.userA.userId || e.userId == best.userB.userId)) now,
           (createMatch s.db best.userA.userId best.userB.userId now).1⟩
        rcases scan_ok_selected lkScan s.queue now best hscan with ⟨p, hp, hA, hB, _⟩
        rcases mem_allPairs s.queue p hp with ⟨hp1, hp2⟩
        have hzeroA : countActive s.db best.userA.userId = 0 := h2 _ (hA ▸ hp1)
        have hzeroB : countActive s.db best.userB.userId = 0 := h2 _ (hB ▸ hp2)
        constructor
        · intro u'
          rw [countActive_createMatch]
          by_cases hu : (best.userA.userId == u' || best.userB.userId == u') = true
          · rw [if_pos hu]
            rcases Bool.or_eq_true _ _ ▸ hu with he | he
            · rw [← beq_iff_eq.mp he]
              omega
            · rw [← beq_iff_eq.mp he]
              omega
          · rw [if_neg hu]
            have := h1 u'
            omega
        · intro e he
          rw [countActive_createMatch]
          have hmem := List.mem_filter.mp he
          have hmem2 := List.mem_filter.mp hmem.1
          have hnot := hmem2.2
          have hne : (best.userA.userId == e.userId || best.userB.userId == e.userId) = false := by
            rcases Bool.not_eq_true' .. ▸ hnot with h'
            have h1' : (e.userId == best.userA.userId) = false := by
              rcases Bool.or_eq_false_iff.mp h' with ⟨ha, hb⟩
              exact ha
            have h2' : (e.userId == best.userB.userId) = false := by
              rcases Bool.or_eq_false_iff.mp h' with ⟨ha, hb⟩
              exact hb
            rw [Bool.or_eq_false_iff]
            constructor
            · rw [beq_eq_false_iff_ne] at h1' ⊢
              exact fun hx => h1' hx.symm
            · rw [beq_eq_false_iff_ne] at h2' ⊢
              exact fun hx => h2' hx.symm
          rw [hne, if_neg Bool.false_ne_true]
          have := h2 e hmem2.1
          omega

/-- Every engine operation preserves the active-match invariant. -/
lemma inv_step (s : WorldState) (op : Op) (hinv : ActiveInvariant s) :
    ActiveInvariant (step s op) := by
  cases op with
  | request u tags now => exact inv_requestMatch s u tags now hinv
  | pass lk now => exact inv_processPass lk lk s now hinv
  | endM mid u now => exact inv_endMatch s mid u now hinv
  | cancel u => exact inv_cancelMatch s u hinv

/-- C1 (amended): although `createMatch` itself performs no AlreadyMatched
check, after any sequence of match requests, worker passes (under arbitrary
lookup environments), end-match calls and cancellations from the empty
initial state, every user holds at most one active MatchRecord — and no
queued user holds any — because the request route refuses users with an
active match and a pass removes both chosen users from the queue. -/
theorem c1_at_most_one_active_match (ops : List Op) :
    ActiveInvariant (run initState ops) := by
  suffices h : ∀ (l : List Op) (s : WorldState),
      ActiveInvariant s → ActiveInvariant (run s l) by
    refine h ops initState ⟨fun u => ?_, fun e he => absurd he (List.not_mem_nil e)⟩
    simp [countActive, initState]
  intro l
  induction l with
  | nil => exact fun s h => h
  | cons op l ih => exact fun s h => ih (step s op) (inv_step s op h)

/-- C1 (counterexample): `createMatch` has no failure path — applied to a
database in which "bob" already holds an active match it does not fail with
AlreadyMatched but inserts a second active record, leaving "bob" with two
active MatchRecords. -/
theorem c1_createMatch_never_fails :
    ((createMatch ⟨[⟨0, "bob", "carol", "active", 0, none, none⟩], [], [], []⟩
        "alice" "bob" 50).1).privateMatches =
      [⟨0, "bob", "carol", "active", 0, none, none⟩,
       ⟨1, "alice", "bob", "active", 50, none, none⟩] ∧
    countActive
      (createMatch ⟨[⟨0, "bob", "carol", "active", 0, none, none⟩], [], [], []⟩
        "alice" "bob" 50).1 "bob" = 2 := by
  decide

end Ironroom
